import Mathlib

/-!
# Verification of exchangelib (py-exchange) core claims

A shallow embedding, in Lean 4, of the parts of the `exchangelib` EWS client
library that the frozen claims are about:

* `util.chunkify` — splitting sequences into chunks;
* `fields.Field` — version gating (`supports_version`) and `clean`;
* `protocol.CachingProtocol` — the Protocol instance cache;
* `protocol.BaseProtocol` — the bounded session pool;
* `protocol.FailFast` — the non-retrying retry policy;
* `util.post_ratelimited` / `util._retry_after` — retry-loop wait evolution;
* `queryset.QuerySet` — chaining methods built on `_copy_self`;
* `properties.EWSElement` — generic `to_xml` / `from_xml` marshaling;
* `services.common.EWSPagingService._paged_call` — multi-folder paging.

Python mutable state is rendered as explicit state passing, Python exceptions
as `Except`, machine integers as `Int`/`Nat` (no overflow is involved in the
modelled code paths), and `None` as `Option.none`.
-/

deriving instance DecidableEq for Except

namespace Exchangelib

/-! ## util.chunkify

The `__getitem__` branch of `chunkify` (used for every `list` and `tuple`)
runs `for i in range(0, len(iterable), chunksize): yield iterable[i : i + chunksize]`.
The Python slice `xs[i : i + n]` is `(xs.drop i).take n`; the loop is rendered
as structural recursion: the first slice is `xs.take n`, and the remaining
slices (at offsets `n, 2n, ...`) are the slices at `0, n, ...` of `xs.drop n`.
Python raises `ValueError` on `range(..., 0)`, so `chunksize = 0` is outside
the function's domain; the recursion returns `[]` there.
-/

def chunkify (xs : List α) (chunksize : Nat) : List (List α) :=
  if chunksize = 0 then []
  else
    match xs with
    | [] => []
    | x :: rest => ((x :: rest).take chunksize) :: chunkify ((x :: rest).drop chunksize) chunksize
termination_by xs.length
decreasing_by
  rename_i hn
  simp only [List.length_drop]
  have h1 : 1 ≤ chunksize := Nat.one_le_iff_ne_zero.mpr hn
  simp only [List.length_cons]
  omega

/-! ## fields.Field — version gating, defaults, validation

`version.py` is not part of the source tree; `Build` objects are totally
ordered version quadruples compared with `<` / `>=`, which this embedding
renders as `Nat` (only the order is used by the embedded code).  A `Version`
object wraps a `Build` in its `.build` attribute; `Field.supports_version`
receives the `Version` and reads `version.build`, so the embedding passes the
build directly.  Values are those of text fields (`value_cls = str`, no
`is_list`), the fields the round-trip claim is exercised on; a field value is
`Option String` (`none` = Python `None`).
-/

abbrev Build := Nat

/-- The attributes of `fields.Field` (specialised to text fields) that drive
`clean`, `supports_version` and the `EWSElement` marshaling logic.  `name`
doubles as the `field_uri` of `FieldURIField` (for attribute fields the XML
attribute key, otherwise the XML child tag after namespace-prefix
resolution). -/
structure Field where
  name : String
  is_required : Bool := false
  is_read_only : Bool := false
  is_attribute : Bool := false
  default : Option String := none
  supported_from : Option Build := none
  deprecated_from : Option Build := none
deriving DecidableEq, Repr

/-- Python exceptions raised by `Field.clean`. -/
inductive CleanErr where
  | invalidFieldForVersion
  | valueError
deriving DecidableEq, Repr

/-- `Field.supports_version`: false when `supported_from` is set and
`version.build < supported_from`, false when `deprecated_from` is set and
`version.build >= deprecated_from`, else true.  (A `Build` object is always
truthy, so `if self.supported_from` tests for `None`.) -/
def Field.supports_version (f : Field) (version : Build) : Bool :=
  if f.supported_from.any (fun b => version < b) then false
  else if f.deprecated_from.any (fun b => b ≤ version) then false
  else true

/-- `Field.clean` for a text field: the version gate, then the `None` /
default handling; a non-`None` value is a `str` (the `isinstance` check is
satisfied by construction) and `str` has no `clean` attribute, so it is
returned as-is.  `version` is `None` or a truthy `Version`, so
`if version and not self.supports_version(version)` tests `version.isSome`. -/
def Field.clean (f : Field) (value : Option String) (version : Option Build) :
    Except CleanErr (Option String) :=
  if version.any (fun v => !f.supports_version v) then
    .error .invalidFieldForVersion
  else
    match value with
    | none =>
      if f.is_required ∧ f.default = none then .error .valueError
      else .ok f.default
    | some s => .ok (some s)

/-! ## properties.EWSElement — generic to_xml / from_xml marshaling

An `EWSElement` subclass is a list of `Field`s (its `FIELDS`, unique names by
construction of `EWSMeta`); an instance is the association of each field with
its value, rendered as `List (Field × Option String)`.  The XML element is
rendered as an attribute list plus a child list: a child produced by
`FieldURIField.to_xml` is an element tagged with the field's (namespace
resolved) name carrying the value as its text; lxml yields `None` for the
text of an empty element and `elem.get(...) or None` maps an empty attribute
to `None`, so a stored empty string reads back as `none`.
-/

/-- The XML element produced by `EWSElement.to_xml`: attributes and child
elements (child tag, child text).  Reading the text of a child whose text is
the empty string gives `None` (`elem.text or None`). -/
structure XmlElem where
  attrs : List (String × String)
  children : List (String × String)
deriving DecidableEq, Repr

/-- First binding of a key in an association list (lxml `elem.get` /
`tree.find` both return the first match in document order). -/
def xmlLookup (k : String) : List (String × String) → Option String
  | [] => none
  | (k', v) :: rest => if k' = k then some v else xmlLookup k rest

/-- `util._ILLEGAL_XML_CHARS_RE`: the characters `safe_xml_value` replaces. -/
def illegalXmlChar (c : Char) : Bool :=
  (c.val ≤ 0x08) ∨ (c.val = 0x0b) ∨ (c.val = 0x0c)
    ∨ (0x0e ≤ c.val ∧ c.val ≤ 0x1f)
    ∨ (0xd800 ≤ c.val ∧ c.val ≤ 0xdfff)
    ∨ (c.val = 0xfffe) ∨ (c.val = 0xffff)

/-- `util.safe_xml_value`: replace illegal XML characters with `"?"`.
`util.value_to_xml_text` on a `str` is exactly this function. -/
def safe_xml_value (s : String) : String :=
  String.mk (s.data.map (fun c => if illegalXmlChar c then '?' else c))

/-- `EWSElement.clean(version=version)`: walk `FIELDS`; skip fields the
version does not support (`if version and not f.supports_version(version)`),
otherwise replace the value with `f.clean(value, version=version)`.
(The `ExtendedPropertyField` special case does not arise for these fields.) -/
def ewsClean (version : Option Build) :
    List (Field × Option String) → Except CleanErr (List (Field × Option String))
  | [] => .ok []
  | (f, val) :: rest =>
    if version.any (fun v => !f.supports_version v) then
      ((f, val) :: ·) <$> ewsClean version rest
    else do
      let val' ← f.clean val version
      ((f, val') :: ·) <$> ewsClean version rest

/-- The attribute dict built by `EWSElement.to_xml`: for every attribute
field, skipping read-only fields and `None` values,
`attrs[f.field_uri] = value_to_xml_text(value)`. -/
def toXmlAttrs (pairs : List (Field × Option String)) : List (String × String) :=
  pairs.filterMap (fun p =>
    if p.1.is_attribute ∧ ¬p.1.is_read_only then
      p.2.map (fun s => (p.1.name, safe_xml_value s))
    else none)

/-- The children appended by `EWSElement.to_xml`: for every field of
`supported_fields(version)` (non-attribute fields supported by the version),
skipping read-only fields and `None` values, a child element tagged with the
field name whose text is `value_to_xml_text(value)`. -/
def toXmlChildren (version : Build) (pairs : List (Field × Option String)) :
    List (String × String) :=
  pairs.filterMap (fun p =>
    if ¬p.1.is_attribute ∧ p.1.supports_version version ∧ ¬p.1.is_read_only then
      p.2.map (fun s => (p.1.name, safe_xml_value s))
    else none)

/-- `EWSElement.to_xml(version)`: `self.clean(version=version)` (which
rebinds every cleaned field value), then the attribute dict and the child
elements from the cleaned values. -/
def to_xml (version : Build) (pairs : List (Field × Option String)) :
    Except CleanErr XmlElem := do
  let cleaned ← ewsClean (some version) pairs
  .ok { attrs := toXmlAttrs cleaned, children := toXmlChildren version cleaned }

/-- `FieldURIField._get_val_from_elem`: `elem.get(field_uri) or None` for
attribute fields, `get_xml_attr(elem, response_tag)` (i.e. `elem.text or
None` of the first matching child, `None` if absent) otherwise. -/
def getValFromElem (f : Field) (elem : XmlElem) : Option String :=
  if f.is_attribute then
    match xmlLookup f.name elem.attrs with
    | none => none
    | some s => if s = "" then none else some s
  else
    match xmlLookup f.name elem.children with
    | none => none
    | some s => if s = "" then none else some s

/-- `FieldURIField.from_xml` for a text field: the element value if present
(`xml_text_to_value(val, str)` is the identity), else the field's default.
The `account` argument is unused by these fields. -/
def fieldFromXml (f : Field) (elem : XmlElem) (_account : Nat) : Option String :=
  match getValFromElem f elem with
  | some s => some s
  | none => f.default

/-- `EWSElement.from_xml(elem, account)`: read every field of `FIELDS` with
`f.from_xml` and construct the instance from the results. -/
def from_xml (fields : List Field) (elem : XmlElem) (account : Nat) :
    List (Field × Option String) :=
  fields.map (fun f => (f, fieldFromXml f elem account))

/-- The counterexample field for C1: a read-only text field. -/
def roFld : Field := { name := "note", is_read_only := true }

/-! ## protocol.CachingProtocol — the Protocol instance cache

`CachingProtocol.__call__` caches `Protocol` instances in the class-level
dict `_protocol_cache`, keyed by `(config.service_endpoint,
config.credentials)`.  The embedding is sequential (the double-checked
locking collapses to a single lookup), Protocol instances are identified by
allocation numbers, the dict is an insertion-ordered association list, and
`Protocol.__init__` (network I/O) is an oracle: each call is told whether
the constructor would succeed, raise `TransportError`, or raise some other
exception.  `errors.py` is not in the source tree; exceptions are bare
labels. -/

/-- A `Configuration` as seen by `CachingProtocol.__call__`: only
`service_endpoint` and `credentials` are read.  `credentials` is an abstract
identifier; `service_endpoint` is falsy when `None` or empty. -/
structure Configuration where
  service_endpoint : Option String
  credentials : Option Nat
deriving DecidableEq, Repr

/-- The `config` keyword argument: a real `Configuration` or any other
object (`isinstance` fails). -/
inductive ConfigArg where
  | config (c : Configuration)
  | notConfiguration
deriving DecidableEq, Repr

/-- Python truthiness of an optional string: `None` and `""` are falsy. -/
def pyFalsyStr : Option String → Bool
  | none => true
  | some s => s.isEmpty

/-- `CachingProtocol._cache_key(config)`. -/
def cache_key (c : Configuration) : Option String × Option Nat :=
  (c.service_endpoint, c.credentials)

/-- A `_protocol_cache` value: a Protocol instance or a stored
`TransportError` (exceptions are identified by a label). -/
inductive CacheEntry where
  | proto (id : Nat)
  | exc (e : Nat)
deriving DecidableEq, Repr

/-- The exceptions `CachingProtocol.__call__` can propagate. -/
inductive CallExc where
  | invalidTypeError
  | attributeError
  | transportError (e : Nat)
  | otherError (e : Nat)
deriving DecidableEq, Repr

/-- What `super().__call__` (i.e. `Protocol.__init__`) would do this time. -/
inductive CtorOutcome where
  | ok
  | transportError (e : Nat)
  | otherError (e : Nat)
deriving DecidableEq, Repr

abbrev CacheKey := Option String × Option Nat

/-- `dict.__getitem__` on the insertion-ordered association list. -/
def dictFind (k : CacheKey) : List (CacheKey × (CacheEntry × Nat)) → Option (CacheEntry × Nat)
  | [] => none
  | (k', v) :: rest => if k' = k then some v else dictFind k rest

/-- `dict.__setitem__`: overwrite in place, or append. -/
def dictSet (k : CacheKey) (v : CacheEntry × Nat) :
    List (CacheKey × (CacheEntry × Nat)) → List (CacheKey × (CacheEntry × Nat))
  | [] => [(k, v)]
  | (k', v') :: rest => if k' = k then (k, v) :: rest else (k', v') :: dictSet k v rest

/-- The mutable state touched by `CachingProtocol.__call__`: the cache, a
fresh-instance counter, a logical clock standing in for `datetime.now()`,
and the number of times `super().__call__` has run. -/
structure ProtocolCacheState where
  cache : List (CacheKey × (CacheEntry × Nat))
  nextId : Nat
  clock : Nat
  ctorRuns : Nat
deriving DecidableEq, Repr

/-- `CachingProtocol.__call__`: type-check `config`, reject a falsy
`service_endpoint`, look the key up (re-raising a stored exception), and on
a miss run the constructor, caching the instance — or, when it raised
`TransportError`, caching the exception and re-raising it.  Other
exceptions propagate uncached. -/
def protocolCall (st : ProtocolCacheState) (arg : ConfigArg) (outcome : CtorOutcome) :
    ProtocolCacheState × Except CallExc Nat :=
  match arg with
  | .notConfiguration => (st, .error .invalidTypeError)
  | .config c =>
    if pyFalsyStr c.service_endpoint then (st, .error .attributeError)
    else
      match dictFind (cache_key c) st.cache with
      | some (.exc e, _) => (st, .error (.transportError e))
      | some (.proto p, _) => (st, .ok p)
      | none =>
        match outcome with
        | .ok =>
          ({ cache := dictSet (cache_key c) (.proto st.nextId, st.clock) st.cache,
             nextId := st.nextId + 1, clock := st.clock + 1,
             ctorRuns := st.ctorRuns + 1 }, .ok st.nextId)
        | .transportError e =>
          ({ cache := dictSet (cache_key c) (.exc e, st.clock) st.cache,
             nextId := st.nextId, clock := st.clock + 1,
             ctorRuns := st.ctorRuns + 1 }, .error (.transportError e))
        | .otherError e =>
          ({ st with ctorRuns := st.ctorRuns + 1 }, .error (.otherError e))

/-- `CachingProtocol.clear_cache`: closes the cached protocols' session
pools (not modelled) and clears the dict. -/
def clear_cache (st : ProtocolCacheState) : ProtocolCacheState :=
  { st with cache := [] }

/-! ## protocol.BaseProtocol — the bounded session pool

`BaseProtocol.__init__` sets `_session_pool_size = 0` and
`_session_pool_maxsize = config.max_connections or self.SESSION_POOLSIZE`
(`SESSION_POOLSIZE = 1`; Python `or` falls back on `None` *and* `0`).
`increase_poolsize` / `decrease_poolsize` are modelled sequentially: the
inner re-check under the lock sees the same state as the unlocked check, so
the two checks collapse into one.  `Configuration` only type-checks
`max_connections` as `int`; non-negative values are modelled. -/

def SESSION_POOLSIZE : Nat := 1

structure SessionPoolState where
  size : Nat
  maxsize : Nat
deriving DecidableEq, Repr

inductive PoolExc where
  | sessionPoolMaxSizeReached
  | sessionPoolMinSizeReached
deriving DecidableEq, Repr

/-- `BaseProtocol.__init__`: pool size 0,
maxsize `config.max_connections or SESSION_POOLSIZE`. -/
def poolInit (max_connections : Option Nat) : SessionPoolState :=
  { size := 0,
    maxsize := match max_connections with
      | none => SESSION_POOLSIZE
      | some n => if n = 0 then SESSION_POOLSIZE else n }

/-- `BaseProtocol.increase_poolsize`: raise `SessionPoolMaxSizeReached` when
`_session_pool_size >= _session_pool_maxsize`, otherwise create one session
and increment the size. -/
def increase_poolsize (st : SessionPoolState) : SessionPoolState × Option PoolExc :=
  if st.maxsize ≤ st.size then (st, some .sessionPoolMaxSizeReached)
  else ({ st with size := st.size + 1 }, none)

/-- `BaseProtocol.decrease_poolsize`: raise `SessionPoolMinSizeReached` when
`_session_pool_size <= 1`, otherwise discard one session and decrement the
size. -/
def decrease_poolsize (st : SessionPoolState) : SessionPoolState × Option PoolExc :=
  if st.size ≤ 1 then (st, some .sessionPoolMinSizeReached)
  else ({ st with size := st.size - 1 }, none)

inductive PoolOp where
  | increase
  | decrease
deriving DecidableEq, Repr

/-- Run a sequence of pool-size operations (exceptions leave the state
unchanged, as in the source). -/
def runPool (st : SessionPoolState) : List PoolOp → SessionPoolState
  | [] => st
  | .increase :: ops => runPool (increase_poolsize st).1 ops
  | .decrease :: ops => runPool (decrease_poolsize st).1 ops

/-! ## util.post_ratelimited — the retry loop

The loop is embedded over a script of attempt outcomes: each `session.post`
either yields a response object (real or the `DummyResponse` built for
connection errors, expired OAuth tokens and missing auth headers — all
downstream logic only reads the response fields) or raises a TLS error
(re-raised as `TransportError` without retrying).  `get_redirect_url`'s URL
arithmetic is abstracted into a per-response outcome; the `Retry-After`
header's `int(...)` parse is abstracted into a per-response parse result.
Sleeping (`_back_off_if_needed`), logging, and session renewal have no
bearing on the modelled quantities and are omitted.  The loop state records
`wait`, `retry`, `redirects`, the number of attempts, and the trace of
`retry_policy.back_off(...)` calls. -/

def RETRY_WAIT : Int := 10

def MAX_REDIRECTS : Nat := 10

/-- The `Retry-After` response header: absent (`headers.get` falls back to
`"0"`), unparseable (`int(...)` raises `ValueError`), or an integer. -/
inductive RetryAfterHeader where
  | absent
  | malformed
  | val (n : Int)
deriving DecidableEq, Repr

/-- The result of `int(r.headers.get("Retry-After", "0"))`:
`none` when `ValueError` was raised. -/
def headerInt : RetryAfterHeader → Option Int
  | .absent => some 0
  | .malformed => none
  | .val n => some n

/-- `util._retry_after(r, wait)`: the parsed `Retry-After` value when it
exceeds `wait`, else `wait`; a parse failure falls through to `wait`. -/
def retry_after_fn (h : RetryAfterHeader) (wait : Int) : Int :=
  match headerInt h with
  | none => wait
  | some ra => if ra > wait then ra else wait

/-- What `get_redirect_url(response, allow_relative=False)` would produce
for a response: an absolute redirect URL, a `RelativeRedirect` (same scheme
and host), or a `TransportError` (no usable `Location`). -/
inductive RedirectInfo where
  | url (u : String)
  | relative (u : String)
  | failure
deriving DecidableEq, Repr

/-- A response as observed by the retry loop. -/
structure MockResp where
  status_code : Nat
  tokenExpired : Bool
  retryAfter : RetryAfterHeader
  redirect : RedirectInfo
deriving DecidableEq, Repr

/-- One `session.post(...)` outcome. -/
inductive AttemptResult where
  | resp (r : MockResp)
  | tlsError
deriving DecidableEq, Repr

inductive LoopExc where
  | transportError
  | redirectError
  | valueError
deriving DecidableEq, Repr

/-- A retry policy as used by `post_ratelimited`: `back_off_until`
(a deadline or `None`), whether `back_off` raises (`FailFast` does), and
`may_retry_on_error(response, wait)`. -/
structure RetryPolicyModel where
  back_off_until : Option Nat
  backOffRaises : Bool
  may_retry_on_error : MockResp → Int → Bool

/-- `protocol.FailFast.back_off(seconds)`: always raises `ValueError`. -/
def failFast_back_off (_seconds : Int) : Except LoopExc Unit :=
  .error .valueError

/-- `protocol.FailFast`: `back_off_until` is `None`, `back_off` raises, and
`may_retry_on_error` returns `False` for every response and wait. -/
def failFast : RetryPolicyModel :=
  { back_off_until := none, backOffRaises := true,
    may_retry_on_error := fun _ _ => false }

/-- `util._need_new_credentials`: status 401 with a `TokenExpiredError`
header. -/
def need_new_credentials (r : MockResp) : Bool :=
  r.status_code = 401 ∧ r.tokenExpired

/-- `util._redirect_or_fail`: resolve the redirect URL (`RelativeRedirect`
becomes `RedirectError`), reject when redirects are not allowed, enforce
`MAX_REDIRECTS`, else return the new URL and incremented count. -/
def redirect_or_fail (r : MockResp) (redirects : Nat) (allow_redirects : Bool) :
    Except LoopExc (String × Nat) :=
  match r.redirect with
  | .failure => .error .transportError
  | .relative _ => .error .redirectError
  | .url u =>
    if !allow_redirects then .error .transportError
    else if MAX_REDIRECTS < redirects + 1 then .error .transportError
    else .ok (u, redirects + 1)

/-- One `retry_policy.back_off(...)` call: the wait before, the header, the
argument passed (`wait = _retry_after(r, wait)`), and the wait after the
`wait *= 2` that follows. -/
structure BackoffEvent where
  before : Int
  header : RetryAfterHeader
  arg : Int
  after : Int
deriving DecidableEq, Repr

structure LoopState where
  wait : Int
  retry : Nat
  redirects : Nat
  attempts : Nat
  backoffs : List BackoffEvent
deriving DecidableEq, Repr

inductive LoopExit where
  | success (r : MockResp)
  | exn (e : LoopExc)
  | scriptEnd
deriving DecidableEq, Repr

/-- The `while True` body of `post_ratelimited`, one iteration per script
entry: post; on TLS error raise `TransportError`; refresh credentials and
`continue` on an expired token; on a retryable error set
`wait = _retry_after(r, wait)`, call `back_off(wait)` (which raises under
`FailFast`), bump `retry`, double `wait` and `continue`; on 301/302 follow
`_redirect_or_fail` and `continue`; otherwise `break` with the response
(the post-loop status handling returns it or raises — not needed by the
claims). -/
def postLoopGo (policy : RetryPolicyModel) (allow_redirects : Bool) (elapsed : Nat → Int) :
    List AttemptResult → LoopState → LoopState × LoopExit
  | [], st => (st, .scriptEnd)
  | .tlsError :: _, st => ({ st with attempts := st.attempts + 1 }, .exn .transportError)
  | .resp r :: rest, st =>
    let st1 := { st with attempts := st.attempts + 1 }
    if need_new_credentials r then
      postLoopGo policy allow_redirects elapsed rest st1
    else if policy.may_retry_on_error r (elapsed st1.attempts) then
      let arg := retry_after_fn r.retryAfter st1.wait
      if policy.backOffRaises then (st1, .exn .valueError)
      else
        postLoopGo policy allow_redirects elapsed rest
          { st1 with wait := 2 * arg, retry := st1.retry + 1,
                     backoffs := st1.backoffs ++ [⟨st1.wait, r.retryAfter, arg, 2 * arg⟩] }
    else if r.status_code = 301 ∨ r.status_code = 302 then
      match redirect_or_fail r st1.redirects allow_redirects with
      | .error e => (st1, .exn e)
      | .ok (_, rd) => postLoopGo policy allow_redirects elapsed rest { st1 with redirects := rd }
    else (st1, .success r)

/-- `post_ratelimited`: run the loop from `wait = RETRY_WAIT`, no retries,
no redirects yet. -/
def post_ratelimited (policy : RetryPolicyModel) (allow_redirects : Bool)
    (elapsed : Nat → Int) (script : List AttemptResult) : LoopState × LoopExit :=
  postLoopGo policy allow_redirects elapsed script
    { wait := RETRY_WAIT, retry := 0, redirects := 0, attempts := 0, backoffs := [] }

/-- The exponential-backoff chain: starting from delay `w`, each back-off
event uses the current delay — replaced by a `Retry-After` value that
exceeds it — as the `back_off` argument (never smaller than the current
delay), and the next delay is its double. -/
def backoffChain (w : Int) : List BackoffEvent → Prop
  | [] => True
  | ev :: rest =>
      ev.before = w
      ∧ ev.arg = (match headerInt ev.header with
          | some n => if n > ev.before then n else ev.before
          | none => ev.before)
      ∧ ev.before ≤ ev.arg
      ∧ ev.after = 2 * ev.arg
      ∧ backoffChain ev.after rest

/-- The delay the chain ends at. -/
def chainEnd (w : Int) : List BackoffEvent → Int
  | [] => w
  | ev :: rest => chainEnd ev.after rest

/-- The C4 counterexample responses: a 302 redirect to an absolute URL,
then a 200. -/
def cexRedirectResp : MockResp :=
  { status_code := 302, tokenExpired := false, retryAfter := .absent,
    redirect := .url "https://other/EWS/Exchange.asmx" }

def cexOkResp : MockResp :=
  { status_code := 200, tokenExpired := false, retryAfter := .absent,
    redirect := .failure }

/-! ## queryset.QuerySet — chaining leaves the receiver unchanged

`QuerySet.filter/exclude/only/order_by/none/all` each build `new_qs =
self._copy_self()` and mutate only `new_qs`; `self` is never assigned.  The
embedding makes object identity explicit: every `QuerySet` value carries an
allocation number `objId`, `_copy_self` builds a fresh object (a new
`objId`) copying every field (`deepcopy` of `q`/`order_fields` copies
values), and each chaining method returns the pair (receiver after the
call, returned object).  `restriction.py` is not in the source tree; `Q`
objects are an opaque syntax tree (`Q()`, `Q(conn_type=Q.NEVER)`, `&`, `~`
are free constructors — the frame claim does not depend on their
algebra).  This `QuerySet` has no result-cache attribute: `__init__`
defines exactly the fields below, and `__iter__` yields straight from
`self._query()` without storing results on the object. -/

/-- `restriction.Q` as a free syntax tree. -/
inductive QObj where
  | mkQ (args : List (String × String))
  | never
  | qand (a b : QObj)
  | qnot (a : QObj)
deriving DecidableEq, Repr

inductive ReqType where
  | item
  | persona
deriving DecidableEq, Repr

inductive RetFormat where
  | values
  | values_list
  | flat
  | noneFormat
deriving DecidableEq, Repr

/-- The instance attributes `QuerySet.__init__` defines, plus the
allocation number standing in for object identity. -/
structure QuerySet where
  objId : Nat
  folder_collection : Nat
  request_type : ReqType
  q : QObj
  only_fields : Option (List String)
  order_fields : Option (List String)
  return_format : RetFormat
  calendar_view : Option Nat
  page_size : Option Nat
  chunk_size : Option Nat
  max_items : Option Nat
  offset : Nat
  depth : Option String
deriving DecidableEq, Repr

/-- `QuerySet._copy_self`: construct a new object (fresh identity) and copy
every field; the comment in the source about not copying the cache is moot
here — this `QuerySet` stores no result cache. -/
def copy_self (nextId : Nat) (qs : QuerySet) : QuerySet :=
  { objId := nextId
    folder_collection := qs.folder_collection
    request_type := qs.request_type
    q := qs.q
    only_fields := qs.only_fields
    order_fields := qs.order_fields
    return_format := qs.return_format
    calendar_view := qs.calendar_view
    page_size := qs.page_size
    chunk_size := qs.chunk_size
    max_items := qs.max_items
    offset := qs.offset
    depth := qs.depth }

/-- `QuerySet.all`: a plain copy.  Returns (receiver after the call,
returned queryset); the receiver is never assigned in the source. -/
def qsAll (nextId : Nat) (qs : QuerySet) : QuerySet × QuerySet :=
  (qs, copy_self nextId qs)

/-- `QuerySet.none`: `new_qs.q = Q(conn_type=Q.NEVER)`. -/
def qsNone (nextId : Nat) (qs : QuerySet) : QuerySet × QuerySet :=
  (qs, { copy_self nextId qs with q := .never })

/-- `QuerySet.filter`: `new_qs.q = new_qs.q & Q(*args, **kwargs)`. -/
def qsFilter (nextId : Nat) (qs : QuerySet) (args : List (String × String)) :
    QuerySet × QuerySet :=
  (qs, { copy_self nextId qs with q := .qand qs.q (.mkQ args) })

/-- `QuerySet.exclude`: `new_qs.q = new_qs.q & ~Q(*args, **kwargs)`. -/
def qsExclude (nextId : Nat) (qs : QuerySet) (args : List (String × String)) :
    QuerySet × QuerySet :=
  (qs, { copy_self nextId qs with q := .qand qs.q (.qnot (.mkQ args)) })

/-- `QuerySet.only`: resolve the field paths, then `new_qs.only_fields =
only_fields` (path resolution is identity here — the claim concerns the
frame). -/
def qsOnly (nextId : Nat) (qs : QuerySet) (args : List String) :
    QuerySet × QuerySet :=
  (qs, { copy_self nextId qs with only_fields := some args })

/-- `QuerySet.order_by`: `new_qs.order_fields = order_fields`. -/
def qsOrderBy (nextId : Nat) (qs : QuerySet) (args : List String) :
    QuerySet × QuerySet :=
  (qs, { copy_self nextId qs with order_fields := some args })

/-! ## services.common.EWSPagingService._paged_call

The server side is a script: one list of `_get_page` results per outer-loop
iteration (`_get_pages` returns one result per remaining folder, zipped
with a snapshot of `paging_infos.items()`).  Folders and elements are
abstract numbers; `paging_infos` is an insertion-ordered association list
`folder ↦ (item_count, next_offset)`; yielded exceptions are `.error ()`.

The crucial transcription detail: `_get_elems_from_page(elem, max_items,
total_item_count)` is a generator whose `total_item_count` parameter is an
`int` fixed at call time — the `total_item_count += 1` in `_paged_call`
rebinds the *outer* variable only, so the guard
`if max_items and total_item_count >= max_items: break` inside the
generator compares against the total as it was when the page started, and
is therefore constant across the whole page. -/

/-- One `_get_page` result for one folder: an `Exception` instance, or a
`(paging_elem, next_offset)` pair (`paging_elem` is `None` for an empty
page; `next_offset` is `None` when paging is complete). -/
inductive PageResult where
  | exc
  | page (elems : Option (List Nat)) (next_offset : Option Int)
deriving DecidableEq, Repr

/-- `_get_elems_from_page`: yield the container's elements, breaking when
`max_items` is truthy and `total_item_count >= max_items` — with
`total_item_count` frozen at the value passed in (see section comment).
`max_items = 0` models falsy (`None` or `0`, no limit). -/
def elemsFromPage (elems : List Nat) (max_items total_item_count : Nat) : List Nat :=
  match elems with
  | [] => []
  | e :: rest =>
    if max_items ≠ 0 ∧ max_items ≤ total_item_count then []
    else e :: elemsFromPage rest max_items total_item_count

/-- Python truthiness of `paging_info["next_offset"]`: `None` and `0` are
falsy. -/
def pyFalsyOffset : Option Int → Bool
  | none => true
  | some n => n = 0

abbrev PagingInfos := List (Nat × Nat × Option Int)

/-- `paging_info` update through the dict (the value object is shared). -/
def infoSet (f : Nat) (v : Nat × Option Int) : PagingInfos → PagingInfos
  | [] => []
  | (f', v') :: rest => if f' = f then (f, v) :: rest else (f', v') :: infoSet f v rest

/-- `del paging_infos[f]`. -/
def infoDel (f : Nat) : PagingInfos → PagingInfos
  | [] => []
  | (f', v') :: rest => if f' = f then rest else (f', v') :: infoDel f rest

/-- The `for (page, next_offset), (f, paging_info) in zip(pages,
list(paging_infos.items()))` body of `_paged_call`: store `next_offset`;
drop the folder and yield on an exception; yield the page's elements
(counting them) and break out of the zip loop when the limit is reached;
drop folders whose `next_offset` is falsy.  Returns the updated dict, total
and output. -/
def innerRound (max_items : Nat) :
    List (PageResult × (Nat × Nat × Option Int)) → PagingInfos → Nat →
    List (Except Unit Nat) → PagingInfos × Nat × List (Except Unit Nat)
  | [], infos, total, out => (infos, total, out)
  | (pr, (f, item_count, _)) :: pairs, infos, total, out =>
    match pr with
    | .exc =>
      innerRound max_items pairs (infoDel f (infoSet f (item_count, none) infos)) total
        (out ++ [.error ()])
    | .page pelems next_offset =>
      let infos1 := infoSet f (item_count, next_offset) infos
      match pelems with
      | some es =>
        let new := elemsFromPage es max_items total
        let infos2 := infoSet f (item_count + new.length, next_offset) infos1
        let total1 := total + new.length
        let out1 := out ++ new.map .ok
        if max_items ≠ 0 ∧ max_items ≤ total1 then (infos2, total1, out1)
        else if pyFalsyOffset next_offset then
          innerRound max_items pairs (infoDel f infos2) total1 out1
        else innerRound max_items pairs infos2 total1 out1
      | none =>
        if pyFalsyOffset next_offset then
          innerRound max_items pairs (infoDel f infos1) total out
        else innerRound max_items pairs infos1 total out

/-- `_get_next_offset(paging_infos.values())`: `None` when no folder has a
non-`None` `next_offset`, else the smallest one. -/
def nextOffsetMin (infos : PagingInfos) : Option Int :=
  (infos.filterMap (fun p => p.2.2)).min?

/-- The `while True` loop of `_paged_call`, one script round per iteration:
stop when `paging_infos` is empty; check `_get_pages` returned one message
per remaining folder (else `MalformedResponseError`, which ends the
trace); run the zip loop; stop when the limit was reached or every folder
finished paging. -/
def pagedCallGo (max_items : Nat) :
    List (List PageResult) → PagingInfos → Nat → List (Except Unit Nat) →
    List (Except Unit Nat)
  | _, [], _, out => out
  | [], _, _, out => out
  | round :: rest, infos, total, out =>
    if round.length ≠ infos.length then out
    else
      match innerRound max_items (round.zip infos) infos total out with
      | (infos1, total1, out1) =>
        if max_items ≠ 0 ∧ max_items ≤ total1 then out1
        else
          match nextOffsetMin infos1 with
          | none => out1
          | some _ => pagedCallGo max_items rest infos1 total1 out1

/-- `EWSPagingService._paged_call` over a folder list and a server script:
every folder starts with `item_count=0`, `next_offset=None`. -/
def paged_call (folders : List Nat) (max_items : Nat)
    (rounds : List (List PageResult)) : List (Except Unit Nat) :=
  pagedCallGo max_items rounds (folders.map (fun f => (f, 0, none))) 0 []

/-! ## Theorems -/

lemma chunkify_nil (chunksize : Nat) : chunkify ([] : List α) chunksize = [] := by
  rw [chunkify]
  split <;> rfl

lemma chunkify_cons (xs : List α) (chunksize : Nat) (hn : chunksize ≠ 0) (hxs : xs ≠ []) :
    chunkify xs chunksize = xs.take chunksize :: chunkify (xs.drop chunksize) chunksize := by
  rw [chunkify.eq_def]
  rcases xs with _ | ⟨x, rest⟩
  · exact absurd rfl hxs
  · simp [hn]

lemma chunkify_join (xs : List α) (n : Nat) (hn : 1 ≤ n) :
    (chunkify xs n).flatten = xs := by
  suffices H : ∀ (L : Nat) (ys : List α), ys.length = L → (chunkify ys n).flatten = ys by
    exact H xs.length xs rfl
  intro L
  induction L using Nat.strong_induction_on with
  | _ L ih =>
    intro ys hl
    rcases eq_or_ne ys [] with rfl | hys
    · simp [chunkify_nil]
    · rw [chunkify_cons ys n (by omega) hys]
      have hpos : 0 < ys.length := List.length_pos.mpr hys
      have hlen : (ys.drop n).length < L := by
        simp only [List.length_drop]
        omega
      rw [List.flatten_cons, ih _ (by omega) (ys.drop n) rfl, List.take_append_drop]

lemma chunkify_mem_length (xs : List α) (n : Nat) (hn : 1 ≤ n) :
    ∀ c ∈ chunkify xs n, 1 ≤ c.length ∧ c.length ≤ n := by
  suffices H : ∀ (L : Nat) (ys : List α), ys.length = L →
      ∀ c ∈ chunkify ys n, 1 ≤ c.length ∧ c.length ≤ n by
    exact H xs.length xs rfl
  intro L
  induction L using Nat.strong_induction_on with
  | _ L ih =>
    intro ys hl
    rcases eq_or_ne ys [] with rfl | hys
    · simp [chunkify_nil]
    · rw [chunkify_cons ys n (by omega) hys]
      intro c hc
      have hpos : 0 < ys.length := List.length_pos.mpr hys
      rcases List.mem_cons.mp hc with rfl | hc
      · refine ⟨?_, ?_⟩ <;> simp only [List.length_take] <;> omega
      · have hlen : (ys.drop n).length < L := by
          simp only [List.length_drop]
          omega
        exact ih _ (by omega) (ys.drop n) rfl c hc

lemma chunkify_dropLast_length (xs : List α) (n : Nat) (hn : 1 ≤ n) :
    ∀ c ∈ (chunkify xs n).dropLast, c.length = n := by
  suffices H : ∀ (L : Nat) (ys : List α), ys.length = L →
      ∀ c ∈ (chunkify ys n).dropLast, c.length = n by
    exact H xs.length xs rfl
  intro L
  induction L using Nat.strong_induction_on with
  | _ L ih =>
    intro ys hl
    rcases eq_or_ne ys [] with rfl | hys
    · simp [chunkify_nil]
    · rw [chunkify_cons ys n (by omega) hys]
      have hpos : 0 < ys.length := List.length_pos.mpr hys
      rcases eq_or_ne (ys.drop n) [] with hdrop | hdrop
      · simp [hdrop, chunkify_nil]
      · have htail : chunkify (ys.drop n) n ≠ [] := by
          rw [chunkify_cons _ n (by omega) hdrop]
          exact List.cons_ne_nil _ _
        intro c hc
        rw [List.dropLast_cons_of_ne_nil htail] at hc
        rcases List.mem_cons.mp hc with rfl | hc
        · have : n ≤ ys.length := by
            by_contra hlt
            exact hdrop (List.drop_eq_nil_of_le (by omega))
          simp only [List.length_take]
          omega
        · have hlen : (ys.drop n).length < L := by
            simp only [List.length_drop]
            omega
          exact ih _ (by omega) (ys.drop n) rfl c hc

/-- C10: `chunkify` partitions its input: for every list `xs` and
`chunksize ≥ 1`, the concatenation of the yielded chunks is `xs`, every chunk
has between 1 and `chunksize` elements, every chunk except possibly the last
has exactly `chunksize` elements, and an empty input yields no chunks. -/
theorem chunkify_partitions (xs : List α) (n : Nat) (hn : 1 ≤ n) :
    (chunkify xs n).flatten = xs
      ∧ (∀ c ∈ chunkify xs n, 1 ≤ c.length ∧ c.length ≤ n)
      ∧ (∀ c ∈ (chunkify xs n).dropLast, c.length = n)
      ∧ (xs = [] → chunkify xs n = []) :=
  ⟨chunkify_join xs n hn, chunkify_mem_length xs n hn,
   chunkify_dropLast_length xs n hn, fun h => h ▸ chunkify_nil n⟩

/-- C10 witness: the partition property instantiated at `[1,2,3,4,5]` with
chunk size 2 (the chunks are `[[1,2],[3,4],[5]]`). -/
theorem chunkify_partitions_witness :
    (chunkify [1, 2, 3, 4, 5] 2).flatten = [1, 2, 3, 4, 5]
      ∧ (∀ c ∈ chunkify [1, 2, 3, 4, 5] 2, 1 ≤ c.length ∧ c.length ≤ 2)
      ∧ (∀ c ∈ (chunkify ([1, 2, 3, 4, 5] : List Nat) 2).dropLast, c.length = 2)
      ∧ (([1, 2, 3, 4, 5] : List Nat) = [] → chunkify [1, 2, 3, 4, 5] 2 = []) :=
  chunkify_partitions [1, 2, 3, 4, 5] 2 (by decide)

/-- C6: `supports_version` is true iff (`supported_from` unset or
`build ≥ supported_from`) and (`deprecated_from` unset or
`build < deprecated_from`); `clean` raises `InvalidFieldForVersion` whenever
`supports_version` is false; and `clean` of `None` returns the default,
raising `ValueError` for a required field without default. -/
theorem field_version_gating (f : Field) (v : Build) :
    (f.supports_version v = true ↔
      ((∀ b, f.supported_from = some b → b ≤ v)
        ∧ (∀ b, f.deprecated_from = some b → v < b)))
    ∧ (f.supports_version v = false →
        ∀ value, f.clean value (some v) = .error .invalidFieldForVersion)
    ∧ (f.supports_version v = true →
        f.clean none (some v) =
          if f.is_required ∧ f.default = none then .error .valueError
          else .ok f.default) := by
  refine ⟨?_, ?_, ?_⟩
  · unfold Field.supports_version
    rcases hs : f.supported_from with _ | b1 <;> rcases hd : f.deprecated_from with _ | b2 <;>
      simp [Option.any]
  · intro hfalse value
    unfold Field.clean
    simp [Option.any, hfalse]
  · intro htrue
    unfold Field.clean
    simp [Option.any, htrue]

/-- C6 witness: the gating property instantiated at a required field
introduced at build 5 and deprecated at build 9, checked at build 7. -/
theorem field_version_gating_witness :
    let f : Field := { name := "start", is_required := true,
                       supported_from := some 5, deprecated_from := some 9 }
    (f.supports_version 7 = true ↔
      ((∀ b, f.supported_from = some b → b ≤ 7)
        ∧ (∀ b, f.deprecated_from = some b → 7 < b)))
    ∧ (f.supports_version 7 = false →
        ∀ value, f.clean value (some 7) = .error .invalidFieldForVersion)
    ∧ (f.supports_version 7 = true →
        f.clean none (some 7) =
          if f.is_required ∧ f.default = none then .error .valueError
          else .ok f.default) :=
  field_version_gating _ 7

lemma xmlLookup_build_eq_none (mk : Field → Option String → Option String)
    (k : String) :
    ∀ pairs : List (Field × Option String),
      k ∉ pairs.map (fun p => p.1.name) →
      xmlLookup k (pairs.filterMap (fun p => (mk p.1 p.2).map (fun s => (p.1.name, s)))) = none := by
  intro pairs
  induction pairs with
  | nil => intro _; rfl
  | cons hd rest ih =>
    intro hk
    simp only [List.map_cons, List.mem_cons] at hk
    push_neg at hk
    simp only [List.filterMap_cons]
    rcases hmk : mk hd.1 hd.2 with _ | s
    · exact ih hk.2
    · simp only [Option.map_some, xmlLookup]
      rw [if_neg (fun h => hk.1 h.symm)]
      exact ih hk.2

lemma xmlLookup_build (mk : Field → Option String → Option String) (f : Field)
    (val : Option String) :
    ∀ pairs : List (Field × Option String), (f, val) ∈ pairs →
      (pairs.map (fun p => p.1.name)).Nodup →
      xmlLookup f.name (pairs.filterMap (fun p => (mk p.1 p.2).map (fun s => (p.1.name, s))))
        = mk f val := by
  intro pairs
  induction pairs with
  | nil => intro h; exact absurd h (List.not_mem_nil _)
  | cons hd rest ih =>
    intro hmem hnodup
    simp only [List.map_cons, List.nodup_cons] at hnodup
    simp only [List.filterMap_cons]
    rcases List.mem_cons.mp hmem with heq | hmem'
    · subst heq
      rcases hmk : mk f val with _ | s
      · exact xmlLookup_build_eq_none mk f.name rest hnodup.1
      · simp [xmlLookup]
    · have hname : hd.1.name ≠ f.name := by
        intro h
        exact hnodup.1 (h ▸ List.mem_map.mpr ⟨(f, val), hmem', rfl⟩)
      rcases hmk : mk hd.1 hd.2 with _ | s
      · exact ih hmem' hnodup.2
      · simp only [Option.map_some, xmlLookup]
        rw [if_neg hname]
        exact ih hmem' hnodup.2

lemma toXmlAttrs_eq_build (pairs : List (Field × Option String)) :
    toXmlAttrs pairs
      = pairs.filterMap (fun p =>
          ((if p.1.is_attribute ∧ ¬p.1.is_read_only then p.2.map safe_xml_value else none).map
            (fun s => (p.1.name, s)))) := by
  unfold toXmlAttrs
  congr 1
  funext p
  split
  · rcases p.2 with _ | s <;> rfl
  · rfl

lemma toXmlChildren_eq_build (version : Build) (pairs : List (Field × Option String)) :
    toXmlChildren version pairs
      = pairs.filterMap (fun p =>
          ((if ¬p.1.is_attribute ∧ p.1.supports_version version ∧ ¬p.1.is_read_only then
              p.2.map safe_xml_value else none).map
            (fun s => (p.1.name, s)))) := by
  unfold toXmlChildren
  congr 1
  funext p
  split
  · rcases p.2 with _ | s <;> rfl
  · rfl

lemma fieldFromXml_toXml (version : Build) (account : Nat)
    (pairs : List (Field × Option String)) (f : Field) (val : Option String)
    (hmem : (f, val) ∈ pairs)
    (hnodup : (pairs.map (fun p => p.1.name)).Nodup)
    (hsome : ∀ s, val = some s →
        f.is_read_only = false
        ∧ (f.is_attribute = true ∨ f.supports_version version = true)
        ∧ s ≠ "" ∧ safe_xml_value s = s)
    (hnone : val = none → f.default = none) :
    fieldFromXml f
      { attrs := toXmlAttrs pairs, children := toXmlChildren version pairs } account = val := by
  have hattrs := toXmlAttrs_eq_build pairs
  have hchildren := toXmlChildren_eq_build version pairs
  unfold fieldFromXml getValFromElem
  rcases hattr : f.is_attribute with _ | _
  · -- element field: read from the children
    simp only [hattr, Bool.false_eq_true, if_false]
    rw [hchildren,
      xmlLookup_build (fun g w =>
        if ¬g.is_attribute ∧ g.supports_version version ∧ ¬g.is_read_only then
          w.map safe_xml_value else none) f val pairs hmem hnodup]
    rcases hval : val with _ | s
    · simp only [hattr]
      simp [hnone hval]
    · obtain ⟨hro, hsup, hne, hsafe⟩ := hsome s hval
      rcases hsup with hsup | hsup
      · rw [hattr] at hsup; cases hsup
      · simp only [hattr, hro, hsup]
        simp [hsafe, hne]
  · -- attribute field
    simp only [hattr, if_true]
    rw [hattrs,
      xmlLookup_build (fun g w =>
        if g.is_attribute ∧ ¬g.is_read_only then w.map safe_xml_value else none)
        f val pairs hmem hnodup]
    rcases hval : val with _ | s
    · simp only [hattr]
      simp [hnone hval]
    · obtain ⟨hro, _, hne, hsafe⟩ := hsome s hval
      simp only [hattr, hro]
      simp [hsafe, hne]

/-- C1 (amended): round-trip marshaling for an `EWSElement` whose fields are
text fields, provided `clean` for version `v` returns every field value
unchanged, non-`None` values sit in writable fields that are attributes or
supported by `v`, values are neither empty strings nor changed by
`safe_xml_value`, and `None`-valued fields have no default: then
`from_xml(x.to_xml(version=v), account)` equals `x` for every account. -/
theorem ewselement_roundtrip (v : Build) (account : Nat)
    (pairs : List (Field × Option String))
    (hnodup : (pairs.map (fun p => p.1.name)).Nodup)
    (hclean : ewsClean (some v) pairs = .ok pairs)
    (hsome : ∀ p ∈ pairs, ∀ s, p.2 = some s →
        p.1.is_read_only = false
        ∧ (p.1.is_attribute = true ∨ p.1.supports_version v = true)
        ∧ s ≠ "" ∧ safe_xml_value s = s)
    (hnone : ∀ p ∈ pairs, p.2 = none → p.1.default = none) :
    ∃ elem, to_xml v pairs = .ok elem
      ∧ from_xml (pairs.map (fun p => p.1)) elem account = pairs := by
  refine ⟨{ attrs := toXmlAttrs pairs, children := toXmlChildren v pairs }, ?_, ?_⟩
  · unfold to_xml
    rw [hclean]
    rfl
  · unfold from_xml
    rw [List.map_map]
    have : ∀ p ∈ pairs,
        ((fun f => (f, fieldFromXml f
            { attrs := toXmlAttrs pairs, children := toXmlChildren v pairs } account))
          ∘ fun p => p.1) p = p := by
      intro p hp
      have hmem : (p.1, p.2) ∈ pairs := by simpa using hp
      have := fieldFromXml_toXml v account pairs p.1 p.2 hmem hnodup
        (hsome p hp) (hnone p hp)
      simp only [Function.comp_apply, this]
    rw [List.map_congr_left this]
    simp

/-- C1 witness: the round trip at a two-field element (a writable attribute
field holding `"x"` and a writable element field holding `none`). -/
theorem ewselement_roundtrip_witness :
    let fa : Field := { name := "id", is_attribute := true }
    let fb : Field := { name := "subject" }
    ∃ elem, to_xml 3 [(fa, some "x"), (fb, none)] = .ok elem
      ∧ from_xml ([(fa, some "x"), (fb, none)].map (fun p => p.1)) elem 0
          = [(fa, some "x"), (fb, none)] := by
  intro fa fb
  exact ewselement_roundtrip 3 0 [(fa, some "x"), (fb, none)]
    (by decide) (by decide)
    (by decide)
    (by decide)

/-- C1 counterexample: a read-only field whose value `"hi"` passes `clean`
for version 1 unchanged, yet `to_xml` skips read-only fields, so `from_xml`
of the produced XML yields `none` for it — the claim as stated is false. -/
theorem ewselement_roundtrip_cex :
    ewsClean (some 1) [(roFld, some "hi")] = .ok [(roFld, some "hi")]
    ∧ roFld.clean (some "hi") (some 1) = .ok (some "hi")
    ∧ to_xml 1 [(roFld, some "hi")] = .ok { attrs := [], children := [] }
    ∧ from_xml [roFld] { attrs := [], children := [] } 0 = [(roFld, none)]
    ∧ [(roFld, none)] ≠ [(roFld, some "hi")] := by
  refine ⟨rfl, rfl, rfl, rfl, ?_⟩
  decide

lemma dictFind_dictSet_self (k : CacheKey) (v : CacheEntry × Nat) :
    ∀ cache, dictFind k (dictSet k v cache) = some v := by
  intro cache
  induction cache with
  | nil => simp [dictSet, dictFind]
  | cons hd rest ih =>
    rcases hd with ⟨k', v'⟩
    by_cases hk : k' = k
    · simp [dictSet, dictFind, hk]
    · simp only [dictSet, dictFind, if_neg hk]
      exact ih

/-- C2: Protocol instance caching.  With the cache missing the key, a first
construction with config `c` succeeds and runs the constructor once; a
second construction with any `c2` having an equal `(service_endpoint,
credentials)` pair returns the identical instance and leaves the state (in
particular the constructor-run count) unchanged.  A falsy
`service_endpoint` raises `AttributeError` and a non-`Configuration` config
raises `InvalidTypeError`, in both cases without touching the state. -/
theorem protocol_instance_caching (st : ProtocolCacheState) (c c2 : Configuration)
    (o2 : CtorOutcome)
    (hkey : cache_key c2 = cache_key c)
    (hep : pyFalsyStr c.service_endpoint = false)
    (hmiss : dictFind (cache_key c) st.cache = none) :
    (protocolCall st (.config c) .ok).2 = .ok st.nextId
    ∧ (protocolCall st (.config c) .ok).1.ctorRuns = st.ctorRuns + 1
    ∧ protocolCall (protocolCall st (.config c) .ok).1 (.config c2) o2
        = ((protocolCall st (.config c) .ok).1, .ok st.nextId)
    ∧ (∀ st' o (c' : Configuration), pyFalsyStr c'.service_endpoint = true →
        protocolCall st' (.config c') o = (st', .error .attributeError))
    ∧ (∀ st' o, protocolCall st' .notConfiguration o = (st', .error .invalidTypeError)) := by
  have hep2 : pyFalsyStr c2.service_endpoint = false := by
    have : c2.service_endpoint = c.service_endpoint := congrArg Prod.fst hkey
    rw [this]
    exact hep
  refine ⟨?_, ?_, ?_, ?_, ?_⟩
  · simp [protocolCall, hep, hmiss]
  · simp [protocolCall, hep, hmiss]
  · simp only [protocolCall, hep, hmiss, hep2, Bool.false_eq_true, if_false, hkey]
    rw [dictFind_dictSet_self]
  · intro st' o c' hfalsy
    simp [protocolCall, hfalsy]
  · intro st' o
    rfl

/-- C2 witness: the caching scenario from the empty cache with endpoint
`"https://ews"` and credentials `7`. -/
theorem protocol_instance_caching_witness :
    let c : Configuration := { service_endpoint := some "https://ews", credentials := some 7 }
    let st : ProtocolCacheState := { cache := [], nextId := 0, clock := 0, ctorRuns := 0 }
    (protocolCall st (.config c) .ok).2 = .ok st.nextId
    ∧ (protocolCall st (.config c) .ok).1.ctorRuns = st.ctorRuns + 1
    ∧ protocolCall (protocolCall st (.config c) .ok).1 (.config c) .ok
        = ((protocolCall st (.config c) .ok).1, .ok st.nextId)
    ∧ (∀ st' o (c' : Configuration), pyFalsyStr c'.service_endpoint = true →
        protocolCall st' (.config c') o = (st', .error .attributeError))
    ∧ (∀ st' o, protocolCall st' .notConfiguration o = (st', .error .invalidTypeError)) := by
  intro c st
  exact protocol_instance_caching st c c .ok rfl (by decide) rfl

/-- C9: negative caching.  When the constructor raises `TransportError e`,
the exception is stored under the key: every later construction with an
equal key re-raises it, leaving the state unchanged and never running the
constructor, and after `clear_cache` a construction attempt builds a new
Protocol again (the constructor runs). -/
theorem protocol_negative_caching (st : ProtocolCacheState) (c c2 : Configuration)
    (o2 : CtorOutcome) (e : Nat)
    (hkey : cache_key c2 = cache_key c)
    (hep : pyFalsyStr c.service_endpoint = false)
    (hmiss : dictFind (cache_key c) st.cache = none) :
    (protocolCall st (.config c) (.transportError e)).2 = .error (.transportError e)
    ∧ protocolCall (protocolCall st (.config c) (.transportError e)).1 (.config c2) o2
        = ((protocolCall st (.config c) (.transportError e)).1, .error (.transportError e))
    ∧ (clear_cache (protocolCall st (.config c) (.transportError e)).1).cache = []
    ∧ (protocolCall
        (clear_cache (protocolCall st (.config c) (.transportError e)).1) (.config c2) .ok).2
        = .ok (clear_cache (protocolCall st (.config c) (.transportError e)).1).nextId
    ∧ (protocolCall
        (clear_cache (protocolCall st (.config c) (.transportError e)).1) (.config c2) .ok).1.ctorRuns
        = (clear_cache (protocolCall st (.config c) (.transportError e)).1).ctorRuns + 1 := by
  have hep2 : pyFalsyStr c2.service_endpoint = false := by
    have : c2.service_endpoint = c.service_endpoint := congrArg Prod.fst hkey
    rw [this]
    exact hep
  refine ⟨?_, ?_, ?_, ?_, ?_⟩
  · simp [protocolCall, hep, hmiss]
  · simp only [protocolCall, hep, hmiss, hep2, Bool.false_eq_true, if_false, hkey]
    rw [dictFind_dictSet_self]
  · rfl
  · simp [protocolCall, clear_cache, hep, hmiss, hep2, dictFind]
  · simp [protocolCall, clear_cache, hep, hmiss, hep2, dictFind]

/-- C9 witness: negative caching from the empty cache, constructor failing
with `TransportError 3`. -/
theorem protocol_negative_caching_witness :
    let c : Configuration := { service_endpoint := some "https://ews", credentials := some 7 }
    let st : ProtocolCacheState := { cache := [], nextId := 0, clock := 0, ctorRuns := 0 }
    (protocolCall st (.config c) (.transportError 3)).2 = .error (.transportError 3)
    ∧ protocolCall (protocolCall st (.config c) (.transportError 3)).1 (.config c) .ok
        = ((protocolCall st (.config c) (.transportError 3)).1, .error (.transportError 3))
    ∧ (clear_cache (protocolCall st (.config c) (.transportError 3)).1).cache = []
    ∧ (protocolCall
        (clear_cache (protocolCall st (.config c) (.transportError 3)).1) (.config c) .ok).2
        = .ok (clear_cache (protocolCall st (.config c) (.transportError 3)).1).nextId
    ∧ (protocolCall
        (clear_cache (protocolCall st (.config c) (.transportError 3)).1) (.config c) .ok).1.ctorRuns
        = (clear_cache (protocolCall st (.config c) (.transportError 3)).1).ctorRuns + 1 := by
  intro c st
  exact protocol_negative_caching st c c .ok 3 rfl (by decide) rfl

lemma runPool_maxsize (st : SessionPoolState) :
    ∀ ops, (runPool st ops).maxsize = st.maxsize := by
  intro ops
  induction ops generalizing st with
  | nil => rfl
  | cons op rest ih =>
    cases op
    · show (runPool (increase_poolsize st).1 rest).maxsize = st.maxsize
      rw [ih]
      unfold increase_poolsize
      split <;> rfl
    · show (runPool (decrease_poolsize st).1 rest).maxsize = st.maxsize
      rw [ih]
      unfold decrease_poolsize
      split <;> rfl

lemma runPool_size_le (st : SessionPoolState) (hst : st.size ≤ st.maxsize) :
    ∀ ops, (runPool st ops).size ≤ (runPool st ops).maxsize := by
  intro ops
  induction ops generalizing st with
  | nil => exact hst
  | cons op rest ih =>
    cases op
    · show (runPool (increase_poolsize st).1 rest).size ≤ _
      apply ih
      unfold increase_poolsize
      split
      · exact hst
      · rename_i h
        push_neg at h
        show st.size + 1 ≤ st.maxsize
        omega
    · show (runPool (decrease_poolsize st).1 rest).size ≤ _
      apply ih
      unfold decrease_poolsize
      split
      · exact hst
      · show st.size - 1 ≤ st.maxsize
        omega

/-- C5 (amended): the pool size starts at 0 and, for every sequence of
increase/decrease calls, stays between 0 and the maximum — which is
`config.max_connections` when that is set *and nonzero* (truthy), else
`SESSION_POOLSIZE`; `increase_poolsize` raises `SessionPoolMaxSizeReached`
exactly when the pool is at (or above) the maximum, leaving the size
unchanged, and `decrease_poolsize` raises `SessionPoolMinSizeReached`
exactly when at most one session is pooled, leaving the size unchanged. -/
theorem session_pool_bounded (max_connections : Option Nat) (ops : List PoolOp) :
    (poolInit max_connections).size = 0
    ∧ (poolInit max_connections).maxsize
        = (match max_connections with
            | none => SESSION_POOLSIZE
            | some n => if n = 0 then SESSION_POOLSIZE else n)
    ∧ (runPool (poolInit max_connections) ops).size
        ≤ (poolInit max_connections).maxsize
    ∧ (∀ st : SessionPoolState, st.maxsize ≤ st.size →
        increase_poolsize st = (st, some .sessionPoolMaxSizeReached))
    ∧ (∀ st : SessionPoolState, st.size ≤ 1 →
        decrease_poolsize st = (st, some .sessionPoolMinSizeReached)) := by
  refine ⟨rfl, rfl, ?_, ?_, ?_⟩
  · have h := runPool_size_le (poolInit max_connections) (by simp [poolInit]) ops
    rw [runPool_maxsize] at h
    exact h
  · intro st h
    unfold increase_poolsize
    rw [if_pos h]
  · intro st h
    unfold decrease_poolsize
    rw [if_pos h]

/-- C5 witness: with `max_connections = 3` and the call sequence
increase, increase, decrease, the bound and the raise conditions hold. -/
theorem session_pool_bounded_witness :
    (poolInit (some 3)).size = 0
    ∧ (poolInit (some 3)).maxsize
        = (match some 3 with
            | none => SESSION_POOLSIZE
            | some n => if n = 0 then SESSION_POOLSIZE else n)
    ∧ (runPool (poolInit (some 3)) [.increase, .increase, .decrease]).size
        ≤ (poolInit (some 3)).maxsize
    ∧ (∀ st : SessionPoolState, st.maxsize ≤ st.size →
        increase_poolsize st = (st, some .sessionPoolMaxSizeReached))
    ∧ (∀ st : SessionPoolState, st.size ≤ 1 →
        decrease_poolsize st = (st, some .sessionPoolMinSizeReached)) :=
  session_pool_bounded (some 3) [.increase, .increase, .decrease]

/-- C5 counterexample: with `config.max_connections` *set* to `0`, the
claim's maximum is 0 and an `increase_poolsize` call on the fresh pool
should raise `SessionPoolMaxSizeReached`; but `config.max_connections or
SESSION_POOLSIZE` is 1 (`0` is falsy), so the call succeeds and the pool
size reaches 1, exceeding the claimed maximum. -/
theorem session_pool_bounded_cex :
    (increase_poolsize (poolInit (some 0))).2 = none
    ∧ (increase_poolsize (poolInit (some 0))).1.size = 1
    ∧ ¬(increase_poolsize (poolInit (some 0))).1.size ≤ 0 := by
  refine ⟨rfl, rfl, ?_⟩
  decide

lemma retry_after_fn_ge (h : RetryAfterHeader) (wait : Int) :
    wait ≤ retry_after_fn h wait := by
  rcases h with _ | _ | n
  · show wait ≤ if (0 : Int) > wait then 0 else wait
    split <;> omega
  · exact le_refl wait
  · show wait ≤ if n > wait then n else wait
    split <;> omega

lemma retry_after_fn_eq_match (h : RetryAfterHeader) (w : Int) :
    retry_after_fn h w = (match headerInt h with
      | some n => if n > w then n else w
      | none => w) := by
  cases h <;> rfl

lemma backoffChain_append (ev : BackoffEvent) :
    ∀ (l : List BackoffEvent) (w : Int), backoffChain w l → chainEnd w l = ev.before →
      ev.arg = (match headerInt ev.header with
          | some n => if n > ev.before then n else ev.before
          | none => ev.before) →
      ev.before ≤ ev.arg → ev.after = 2 * ev.arg →
      backoffChain w (l ++ [ev]) ∧ chainEnd w (l ++ [ev]) = ev.after := by
  intro l
  induction l with
  | nil =>
    intro w _ hend harg hge hafter
    exact ⟨⟨hend.symm, harg, hge, hafter, trivial⟩, rfl⟩
  | cons hd rest ih =>
    intro w hchain hend harg hge hafter
    obtain ⟨h1, h2, h3, h4, h5⟩ := hchain
    obtain ⟨hc, he⟩ := ih hd.after h5 hend harg hge hafter
    exact ⟨⟨h1, h2, h3, h4, hc⟩, he⟩

lemma postLoopGo_backoffChain (policy : RetryPolicyModel) (allow : Bool)
    (elapsed : Nat → Int) (w0 : Int) :
    ∀ (script : List AttemptResult) (st : LoopState),
      backoffChain w0 st.backoffs → chainEnd w0 st.backoffs = st.wait →
      backoffChain w0 (postLoopGo policy allow elapsed script st).1.backoffs := by
  intro script
  induction script with
  | nil => intro st hc _; exact hc
  | cons a rest ih =>
    intro st hc he
    rcases a with r | _
    · by_cases hcred : need_new_credentials r
      · have hred : postLoopGo policy allow elapsed (.resp r :: rest) st
            = postLoopGo policy allow elapsed rest { st with attempts := st.attempts + 1 } := by
          simp [postLoopGo, hcred]
        rw [hred]
        exact ih _ hc he
      · by_cases hretry : policy.may_retry_on_error r (elapsed (st.attempts + 1))
        · by_cases hraise : policy.backOffRaises
          · have hred : postLoopGo policy allow elapsed (.resp r :: rest) st
                = ({ st with attempts := st.attempts + 1 }, .exn .valueError) := by
              simp [postLoopGo, hcred, hretry, hraise]
            rw [hred]
            exact hc
          · have hred : postLoopGo policy allow elapsed (.resp r :: rest) st
                = postLoopGo policy allow elapsed rest
                    { st with
                      attempts := st.attempts + 1
                      wait := 2 * retry_after_fn r.retryAfter st.wait
                      retry := st.retry + 1
                      backoffs := st.backoffs ++
                        [⟨st.wait, r.retryAfter, retry_after_fn r.retryAfter st.wait,
                          2 * retry_after_fn r.retryAfter st.wait⟩] } := by
              simp [postLoopGo, hcred, hretry, hraise]
            rw [hred]
            have hstep := backoffChain_append
              ⟨st.wait, r.retryAfter, retry_after_fn r.retryAfter st.wait,
                2 * retry_after_fn r.retryAfter st.wait⟩
              st.backoffs w0 hc he (retry_after_fn_eq_match r.retryAfter st.wait)
              (retry_after_fn_ge r.retryAfter st.wait) rfl
            exact ih _ hstep.1 hstep.2
        · by_cases hredir : r.status_code = 301 ∨ r.status_code = 302
          · rcases hro : redirect_or_fail r st.redirects allow with e | ⟨u, rd⟩
            · have hred : postLoopGo policy allow elapsed (.resp r :: rest) st
                  = ({ st with attempts := st.attempts + 1 }, .exn e) := by
                simp [postLoopGo, hcred, hretry, hredir, hro]
              rw [hred]
              exact hc
            · have hred : postLoopGo policy allow elapsed (.resp r :: rest) st
                  = postLoopGo policy allow elapsed rest
                      { st with
                        attempts := st.attempts + 1
                        redirects := rd } := by
                simp [postLoopGo, hcred, hretry, hredir, hro]
              rw [hred]
              exact ih _ hc he
          · have hred : postLoopGo policy allow elapsed (.resp r :: rest) st
                = ({ st with attempts := st.attempts + 1 }, .success r) := by
              simp [postLoopGo, hcred, hretry, hredir]
            rw [hred]
            exact hc
    · exact hc

/-- C3: exponential backoff in `post_ratelimited`.  `RETRY_WAIT` is 10
seconds; for every policy, script and flags, the sequence of
`retry_policy.back_off` calls starts from delay `RETRY_WAIT` and each call
passes the current delay — replaced by a `Retry-After` header value that
exceeds it — which is never smaller than the current delay, after which the
delay is doubled. -/
theorem post_ratelimited_backoff (policy : RetryPolicyModel) (allow : Bool)
    (elapsed : Nat → Int) (script : List AttemptResult) :
    RETRY_WAIT = 10
    ∧ backoffChain RETRY_WAIT (post_ratelimited policy allow elapsed script).1.backoffs
    ∧ (∀ h w, w ≤ retry_after_fn h w) :=
  ⟨rfl,
   postLoopGo_backoffChain policy allow elapsed RETRY_WAIT script
     { wait := RETRY_WAIT, retry := 0, redirects := 0, attempts := 0, backoffs := [] }
     trivial rfl,
   fun h w => retry_after_fn_ge h w⟩

/-- C4 (amended): the `FailFast` policy never retries —
`may_retry_on_error` is `False` for every response and elapsed wait,
`back_off_until` is `None`, `back_off` raises `ValueError` for every
argument — so `post_ratelimited` under `FailFast` never makes a second
attempt to retry an error: on any script free of redirect (301/302)
responses and expired-token (401) responses it performs at most one request
attempt before returning or raising.  (Redirects and OAuth token refreshes
do re-post, which the original claim's universal bound misses.) -/
theorem failfast_never_retries (script : List AttemptResult) (allow : Bool)
    (elapsed : Nat → Int)
    (hscript : ∀ r : MockResp, AttemptResult.resp r ∈ script →
        need_new_credentials r = false ∧ r.status_code ≠ 301 ∧ r.status_code ≠ 302) :
    (∀ r w, failFast.may_retry_on_error r w = false)
    ∧ failFast.back_off_until = none
    ∧ (∀ s : Int, failFast_back_off s = .error .valueError)
    ∧ (post_ratelimited failFast allow elapsed script).1.attempts ≤ 1 := by
  refine ⟨fun _ _ => rfl, rfl, fun _ => rfl, ?_⟩
  rcases script with _ | ⟨a, rest⟩
  · exact Nat.zero_le 1
  · rcases a with r | _
    · obtain ⟨hcred, h301, h302⟩ := hscript r (List.mem_cons_self _ _)
      show (postLoopGo failFast allow elapsed (.resp r :: rest) _).1.attempts ≤ 1
      rw [postLoopGo]
      simp only [hcred, failFast, Bool.false_eq_true, if_false]
      rw [if_neg (by simp [h301, h302])]
    · exact Nat.le_refl 1

/-- C4 witness: a script holding a single 200 response — exactly one
attempt, and all three `FailFast` properties. -/
theorem failfast_never_retries_witness :
    let r200 : MockResp := { status_code := 200, tokenExpired := false,
                             retryAfter := .absent, redirect := .failure }
    (∀ r w, failFast.may_retry_on_error r w = false)
    ∧ failFast.back_off_until = none
    ∧ (∀ s : Int, failFast_back_off s = .error .valueError)
    ∧ (post_ratelimited failFast false (fun _ => 0) [.resp r200]).1.attempts ≤ 1 := by
  intro r200
  refine failfast_never_retries [.resp r200] false (fun _ => 0) ?_
  intro r hr
  have h := List.mem_singleton.mp hr
  injection h with h
  subst h
  exact ⟨rfl, by decide, by decide⟩

/-- C4 counterexample: under `FailFast` with `allow_redirects=True`, a 302
response followed by a 200 makes `post_ratelimited` perform two request
attempts before returning — the claim's "at most one request attempt" is
false as stated. -/
theorem failfast_two_attempts_cex :
    (post_ratelimited failFast true (fun _ => 0)
        [.resp cexRedirectResp, .resp cexOkResp]).1.attempts = 2
    ∧ (post_ratelimited failFast true (fun _ => 0)
        [.resp cexRedirectResp, .resp cexOkResp]).2 = .success cexOkResp :=
  ⟨rfl, rfl⟩

/-- C7: each chaining method returns a new `QuerySet` object (fresh
identity) and leaves the receiver — in particular its `q`, `only_fields`
and `order_fields` — completely unchanged; the returned object differs from
the receiver's state only in the one field the method sets.  (This
`QuerySet` keeps no result cache at all, so the claim's cache clauses hold
vacuously: no operation can change or fill a cache.) -/
theorem queryset_chaining_frame (nextId : Nat) (qs : QuerySet)
    (args : List (String × String)) (flds : List String)
    (hfresh : qs.objId ≠ nextId) :
    ((qsFilter nextId qs args).1 = qs
      ∧ (qsExclude nextId qs args).1 = qs
      ∧ (qsOnly nextId qs flds).1 = qs
      ∧ (qsOrderBy nextId qs flds).1 = qs
      ∧ (qsNone nextId qs).1 = qs
      ∧ (qsAll nextId qs).1 = qs)
    ∧ ((qsFilter nextId qs args).2.objId = nextId
      ∧ (qsFilter nextId qs args).2 ≠ qs
      ∧ (qsFilter nextId qs args).2.q = .qand qs.q (.mkQ args)
      ∧ (qsFilter nextId qs args).2.only_fields = qs.only_fields
      ∧ (qsFilter nextId qs args).2.order_fields = qs.order_fields)
    ∧ ((qsExclude nextId qs args).2.q = .qand qs.q (.qnot (.mkQ args))
      ∧ (qsOnly nextId qs flds).2.only_fields = some flds
      ∧ (qsOnly nextId qs flds).2.q = qs.q
      ∧ (qsOrderBy nextId qs flds).2.order_fields = some flds
      ∧ (qsOrderBy nextId qs flds).2.q = qs.q
      ∧ (qsNone nextId qs).2.q = .never
      ∧ (qsAll nextId qs).2.q = qs.q) := by
  refine ⟨⟨rfl, rfl, rfl, rfl, rfl, rfl⟩, ⟨rfl, ?_, rfl, rfl, rfl⟩,
    ⟨rfl, rfl, rfl, rfl, rfl, rfl, rfl⟩⟩
  intro h
  exact hfresh (congrArg QuerySet.objId h.symm)

/-- C7 witness: the frame property at a concrete queryset (identity 0,
fresh identity 1). -/
theorem queryset_chaining_frame_witness :
    let qs : QuerySet := { objId := 0, folder_collection := 0, request_type := .item,
                           q := .mkQ [], only_fields := none, order_fields := none,
                           return_format := .noneFormat, calendar_view := none,
                           page_size := none, chunk_size := none, max_items := none,
                           offset := 0, depth := none }
    ((qsFilter 1 qs [("subject", "x")]).1 = qs
      ∧ (qsExclude 1 qs [("subject", "x")]).1 = qs
      ∧ (qsOnly 1 qs ["subject"]).1 = qs
      ∧ (qsOrderBy 1 qs ["subject"]).1 = qs
      ∧ (qsNone 1 qs).1 = qs
      ∧ (qsAll 1 qs).1 = qs)
    ∧ ((qsFilter 1 qs [("subject", "x")]).2.objId = 1
      ∧ (qsFilter 1 qs [("subject", "x")]).2 ≠ qs
      ∧ (qsFilter 1 qs [("subject", "x")]).2.q = .qand qs.q (.mkQ [("subject", "x")])
      ∧ (qsFilter 1 qs [("subject", "x")]).2.only_fields = qs.only_fields
      ∧ (qsFilter 1 qs [("subject", "x")]).2.order_fields = qs.order_fields)
    ∧ ((qsExclude 1 qs [("subject", "x")]).2.q
          = .qand qs.q (.qnot (.mkQ [("subject", "x")]))
      ∧ (qsOnly 1 qs ["subject"]).2.only_fields = some ["subject"]
      ∧ (qsOnly 1 qs ["subject"]).2.q = qs.q
      ∧ (qsOrderBy 1 qs ["subject"]).2.order_fields = some ["subject"]
      ∧ (qsOrderBy 1 qs ["subject"]).2.q = qs.q
      ∧ (qsNone 1 qs).2.q = .never
      ∧ (qsAll 1 qs).2.q = qs.q) := by
  intro qs
  exact queryset_chaining_frame 1 qs [("subject", "x")] ["subject"] (by decide)

/-- C8 failing input: one folder, `max_items = 1`, and a first page holding
two elements.  `_paged_call` yields both elements — the frozen
`total_item_count` parameter makes the in-page guard compare against the
count at page start (0), so the page is yielded wholesale and the total
reaches 2 > 1.  The second conjunct shows the outer loop does stop paging
afterwards: a scripted second round is never requested. -/
theorem paged_call_exceeds_max_items :
    paged_call [0] 1 [[.page (some [11, 12]) none]] = [.ok 11, .ok 12]
    ∧ (paged_call [0] 1 [[.page (some [11, 12]) none]]).length = 2
    ∧ paged_call [0] 1 [[.page (some [11, 12]) (some 2)],
        [.page (some [13]) none]] = [.ok 11, .ok 12] :=
  ⟨rfl, rfl, rfl⟩

end Exchangelib

